import Mathlib

/-!
Shallow embedding of the VWR2A simulator (`src/simulator.py`, `src/lcu.py`,
`src/rc.py`, plus the older `src/cgra_old.py`).  Machine words are modelled
as `Nat`/`Int` with explicit truncation; fallible code returns `Option` or
`Except`.  Definitions follow the Python source; the few pieces of the
repository that are imported by the source but absent from it (`alu.py`,
`srf.py`, `params.py`, the `vwr2a.py` neighbour wiring) are modelled from
the specification and are marked `Modelled from the spec:` in their doc
comments.
-/

namespace VWR2A

/-! ## Machine geometry constants -/

/-- `CGRA_ROWS = 4` (rows of RCs per column), from `cgra_old.py` (`N_ROW`)
and the spec's machine geometry. -/
def CGRA_ROWS : Nat := 4

/-- `CGRA_COLS = 2` (columns), from `cgra_old.py` (`N_COL`) and the spec. -/
def CGRA_COLS : Nat := 2

/-- Modelled from the spec: `srf.py` is not part of the given source; §3
states the SRF has 8 32-bit registers (`SRF_N_REGS = 8`). -/
def SRF_N_REGS : Nat := 8

/-- `SP_NWORDS = 128` words per scratchpad line, from `cgra_old.py` and §3. -/
def SPM_NWORDS : Nat := 128

/-! ## ALU arithmetic

Modelled from the spec: `alu.py` is imported by `lcu.py`/`rc.py` but absent
from the source tree.  §4.1 fixes 32-bit two's-complement wrap-around
semantics (`c_int32` in the Python), with `sign_flag = result < 0` and
`zero_flag = result == 0`. -/

/-- Truncate an integer to signed 32-bit two's complement (`c_int32(x).value`). -/
def wrap32 (x : Int) : Int := (x + 2 ^ 31) % 2 ^ 32 - 2 ^ 31

/-- Modelled from the spec: §4.1 `SADD`, signed add truncated to 32 bits. -/
def sadd32 (a b : Int) : Int := wrap32 (a + b)

/-- Modelled from the spec: §4.1 `SSUB`, signed subtract truncated to 32 bits. -/
def ssub32 (a b : Int) : Int := wrap32 (a - b)

/-! ## LCU instruction word (`lcu.py`, class `LCU_IMEM_WORD`)

Bit layout, MSB first: `muxa_sel(3) | muxb_sel(3) | br_mode(1) | alu_op(4) |
rf_we(1) | rf_wsel(2) | imm(6)`, 20 bits total. -/

/-- Field tuple of an LCU instruction word (`LCU_IMEM_WORD` constructor
parameters). -/
structure LCU_IMEM_WORD where
  imm : Nat
  rf_wsel : Nat
  rf_we : Nat
  alu_op : Nat
  br_mode : Nat
  muxb_sel : Nat
  muxa_sel : Nat
  deriving DecidableEq, Repr

/-- Value of the packed 20-bit word built by the `LCU_IMEM_WORD` constructor
(concatenation of the per-field binary strings, MSB first). -/
def LCU_IMEM_WORD.get_word (w : LCU_IMEM_WORD) : Nat :=
  w.imm + w.rf_wsel * 2 ^ 6 + w.rf_we * 2 ^ 8 + w.alu_op * 2 ^ 9 +
    w.br_mode * 2 ^ 13 + w.muxb_sel * 2 ^ 14 + w.muxa_sel * 2 ^ 17

/-- Field extraction performed by `LCU_IMEM_WORD(hex_word=...)` together with
`decode_word`: the value is zero-extended to 20 bits and sliced at the fixed
offsets (`[14:20]` imm, `[12:14]` rf_wsel, `[11:12]` rf_we, `[7:11]` alu_op,
`[6:7]` br_mode, `[3:6]` muxb_sel, `[:3]` muxa_sel). -/
def lcuDecodeWord (v : Nat) : LCU_IMEM_WORD where
  imm := v % 2 ^ 6
  rf_wsel := v / 2 ^ 6 % 2 ^ 2
  rf_we := v / 2 ^ 8 % 2
  alu_op := v / 2 ^ 9 % 2 ^ 4
  br_mode := v / 2 ^ 13 % 2
  muxb_sel := v / 2 ^ 14 % 2 ^ 3
  muxa_sel := v / 2 ^ 17 % 2 ^ 3

/-! ## RC instruction word (`rc.py`, class `RC_IMEM_WORD`)

Bit layout, MSB first: `muxa_sel(4) | muxb_sel(4) | op_mode(1) | alu_op(4) |
muxf_sel(3) | rf_we(1) | rf_wsel(1)`, 18 bits total. -/

/-- Field tuple of an RC instruction word (`RC_IMEM_WORD` constructor
parameters). -/
structure RC_IMEM_WORD where
  rf_wsel : Nat
  rf_we : Nat
  muxf_sel : Nat
  alu_op : Nat
  op_mode : Nat
  muxb_sel : Nat
  muxa_sel : Nat
  deriving DecidableEq, Repr

/-- Value of the packed 18-bit word built by the `RC_IMEM_WORD` constructor. -/
def RC_IMEM_WORD.get_word (w : RC_IMEM_WORD) : Nat :=
  w.rf_wsel + w.rf_we * 2 + w.muxf_sel * 2 ^ 2 + w.alu_op * 2 ^ 5 +
    w.op_mode * 2 ^ 9 + w.muxb_sel * 2 ^ 10 + w.muxa_sel * 2 ^ 14

/-- Field extraction performed by `RC_IMEM_WORD(hex_word=...)` together with
`decode_word` (slices `[17:18]` rf_wsel, `[16:17]` rf_we, `[13:16]` muxf_sel,
`[9:13]` alu_op, `[8:9]` op_mode, `[4:8]` muxb_sel, `[:4]` muxa_sel). -/
def rcDecodeWord (v : Nat) : RC_IMEM_WORD where
  rf_wsel := v % 2
  rf_we := v / 2 % 2
  muxf_sel := v / 2 ^ 2 % 2 ^ 3
  alu_op := v / 2 ^ 5 % 2 ^ 4
  op_mode := v / 2 ^ 9 % 2
  muxb_sel := v / 2 ^ 10 % 2 ^ 4
  muxa_sel := v / 2 ^ 14 % 2 ^ 4

/-- An LCU word has all fields strictly below the power of two of its bit
width (3/3/1/4/1/2/6 bits). -/
def LCU_IMEM_WORD.inRange (w : LCU_IMEM_WORD) : Prop :=
  w.imm < 2 ^ 6 ∧ w.rf_wsel < 2 ^ 2 ∧ w.rf_we < 2 ∧ w.alu_op < 2 ^ 4 ∧
    w.br_mode < 2 ∧ w.muxb_sel < 2 ^ 3 ∧ w.muxa_sel < 2 ^ 3

instance (w : LCU_IMEM_WORD) : Decidable w.inRange := by
  unfold LCU_IMEM_WORD.inRange; infer_instance

/-- An RC word has all fields strictly below the power of two of its bit
width (4/4/1/4/3/1/1 bits). -/
def RC_IMEM_WORD.inRange (w : RC_IMEM_WORD) : Prop :=
  w.rf_wsel < 2 ∧ w.rf_we < 2 ∧ w.muxf_sel < 2 ^ 3 ∧ w.alu_op < 2 ^ 4 ∧
    w.op_mode < 2 ∧ w.muxb_sel < 2 ^ 4 ∧ w.muxa_sel < 2 ^ 4

instance (w : RC_IMEM_WORD) : Decidable w.inRange := by
  unfold RC_IMEM_WORD.inRange; infer_instance

/-! ## LCU execution (`lcu.py`, class `LCU`) -/

/-- `LCU.getMuxValue(mux, vwr2a, col, srf_sel, imm, muxA, bgepd)`.

The LCU local register file and the column's SRF are passed as lists; the
result is the produced mux value together with the updated register state.
In the Python source, when `bgepd and muxA` holds and the operand source is
a local register (`mux <= 3`) or the SRF (`mux == 4`), the register is
decremented in place but the local variable `muxValue` is never assigned, so
the `return muxValue` raises `UnboundLocalError`; that (and the final
`raise Exception` for an unrecognized mux) is modelled by returning `none`
for the value component. -/
def lcuGetMuxValue (mux : Nat) (regs srf : List Int) (srf_sel : Nat)
    (imm : Int) (muxA bgepd : Bool) : Option Int × List Int × List Int :=
  if mux ≤ 3 then -- Rx
    if bgepd && muxA then
      (none, regs.set mux (regs.getD mux 0 - 1), srf)
    else
      (some (regs.getD mux 0), regs, srf)
  else if mux = 4 then -- SRF
    if bgepd && muxA then
      (none, regs, srf.set srf_sel (srf.getD srf_sel 0 - 1))
    else
      (some (srf.getD srf_sel 0), regs, srf)
  else if mux = 5 then -- LAST
    if bgepd && muxA then
      (some ((SPM_NWORDS : Int) / (CGRA_ROWS : Int) - 2), regs, srf)
    else
      (some ((SPM_NWORDS : Int) / (CGRA_ROWS : Int) - 1), regs, srf)
  else if mux = 6 then -- ZERO
    if bgepd && muxA then
      (some (-1), regs, srf)
    else
      (some 0, regs, srf)
  else if mux = 7 then -- IMM or ONE
    if muxA then
      if bgepd then (some (imm - 1), regs, srf) else (some imm, regs, srf)
    else
      (some 1, regs, srf)
  else
    (none, regs, srf)

/-- Branch-decision state of the LCU (`self.branch`, `self.branch_pc`). -/
structure LCUBranchState where
  branch : Nat
  branch_pc : Int
  deriving DecidableEq, Repr

/-- `LCU.runAlu` restricted to the conditional branches
(`9 <= alu_op <= 12`) with `br_mode == 0`: the LCU's own ALU computes
`ssub(muxa_val, muxb_val)`; `equal` and `greater` are derived from the
wrapped 32-bit result, and the matching branch condition sets
`branch = 1` and `branch_pc = imm`. -/
def lcuRunAluBranch (alu_op : Nat) (muxa_val muxb_val imm : Int)
    (st : LCUBranchState) : LCUBranchState :=
  let newRes := ssub32 muxa_val muxb_val
  let equal : Bool := newRes = 0
  let greater : Bool := newRes > 0
  let st1 := if alu_op = 9 && equal then LCUBranchState.mk 1 imm else st
  let st2 := if alu_op = 10 && !equal then LCUBranchState.mk 1 imm else st1
  let st3 := if alu_op = 11 && (greater || equal) then LCUBranchState.mk 1 imm else st2
  if alu_op = 12 && !(greater || equal) then LCUBranchState.mk 1 imm else st3

/-! ## Cycle engine (`simulator.py`, `SIMULATOR.run`) -/

/-- The program-counter update at the end of one cycle of `SIMULATOR.run`
(lines 131-140): `pc` is first incremented; then if exactly one collected
branch flag differs from `-1`, `pc` is set to that flag; if two differ from
`-1`, the run raises `"Two branches taken in the same cycle"`. -/
def simArbitratePc (pc : Int) (branch_flags : List Int) : Except String Int :=
  let pc1 := pc + 1
  let bflags := branch_flags.filter (fun b => b ≠ -1)
  if bflags.length = 1 then
    Except.ok (branch_flags.foldl (fun p b => if b ≠ -1 then b else p) pc1)
  else if bflags.length = 2 then
    Except.error "Two branches taken in the same cycle"
  else
    Except.ok pc1

/-- One kernel run of `SIMULATOR.run` as a big-step relation on
`(pc, machine, exited)`, producing the sequence of `pc` values observed at
the loop head.  The per-cycle execution of all slots of the active columns
is abstracted as the function `cycleFn`, mapping `pc` and the machine state
to the next machine state, the per-column branch flags and the per-column
exit flags (the slots are deterministic Python code with no other inputs).
`halt` is loop exit (`pc >= n_instr` or `exit`), `step` one iteration, and
`abort` the `"Two branches taken in the same cycle"` exception. -/
inductive SimRun {M : Type} (cycleFn : Int → M → M × List Int × List Int)
    (nInstr : Int) : Int → M → Bool → List Int → Prop where
  | halt (pc : Int) (m : M) (ex : Bool) (h : ¬(pc < nInstr ∧ ex = false)) :
      SimRun cycleFn nInstr pc m ex [pc]
  | step (pc : Int) (m : M) (traj : List Int) (pcNext : Int)
      (hlt : pc < nInstr)
      (harb : simArbitratePc pc (cycleFn pc m).2.1 = Except.ok pcNext)
      (hrest : SimRun cycleFn nInstr pcNext (cycleFn pc m).1
        ((cycleFn pc m).2.2.any (fun e => e != -1)) traj) :
      SimRun cycleFn nInstr pc m false (pc :: traj)
  | abort (pc : Int) (m : M) (e : String)
      (hlt : pc < nInstr)
      (harb : simArbitratePc pc (cycleFn pc m).2.1 = Except.error e) :
      SimRun cycleFn nInstr pc m false [pc]

/-- `SIMULATOR.kernel_config`: parse of the `column_usage` boolean pair into
the one-hot column-usage code stored in the kernel descriptor
(`[True,True] -> 3`, `[True,False] -> 1`, anything else -> 2`). -/
def kernelConfigColOneHot (cu0 cu1 : Bool) : Nat :=
  if cu0 && cu1 then 3
  else if cu0 then 1
  else 2

/-! ## RC execution (`rc.py`, class `RC`) -/

/-- Modelled from the spec: `params.py` is absent from the source; §4.5
lists `MAX_INT` among the RC operand constants, the maximum signed 32-bit
integer. -/
def MAX_32b : Int := 2 ^ 31 - 1

/-- Modelled from the spec: minimum signed 32-bit integer (`MIN_INT`). -/
def MIN_32b : Int := -(2 ^ 31)

/-- Read-only context of one RC during a cycle: the column's MXCU registers
(R0 is the VWR slice index, R5/R6/R7 the VWR A/B/C masks), the three VWRs,
the SRF, the RC's own registers, and the start-of-cycle ALU results of the
four wired neighbours in the order `[RCT, RCB, RCL, RCR]`
(`self.neighbours[i].res`). -/
structure RCContext where
  mxcuRegs : List Int
  vwrs : List (List Int)
  srf : List Int
  regs : List Int
  neighbours : List Int

/-- `RC.getMuxValue(mux, vwr2a, col, srf_sel)`: mux codes 0-2 read the VWR
cell at index `MXCU.R0 AND mask`, 3 reads SRF register `srf_sel`, 4-5 the
local registers, 6-9 the neighbour ALU results, 10-13 the constants; any
other code raises (modelled as `none`). -/
def rcGetMuxValue (mux : Nat) (ctx : RCContext) (srf_sel : Nat) : Option Int :=
  if mux = 0 then
    some ((ctx.vwrs.getD 0 []).getD
      (Int.land (ctx.mxcuRegs.getD 0 0) (ctx.mxcuRegs.getD 5 0)).toNat 0)
  else if mux = 1 then
    some ((ctx.vwrs.getD 1 []).getD
      (Int.land (ctx.mxcuRegs.getD 0 0) (ctx.mxcuRegs.getD 6 0)).toNat 0)
  else if mux = 2 then
    some ((ctx.vwrs.getD 2 []).getD
      (Int.land (ctx.mxcuRegs.getD 0 0) (ctx.mxcuRegs.getD 7 0)).toNat 0)
  else if mux = 3 then some (ctx.srf.getD srf_sel 0)
  else if mux = 4 then some (ctx.regs.getD 0 0)
  else if mux = 5 then some (ctx.regs.getD 1 0)
  else if mux = 6 then some (ctx.neighbours.getD 0 0) -- RCT
  else if mux = 7 then some (ctx.neighbours.getD 1 0) -- RCB
  else if mux = 8 then some (ctx.neighbours.getD 2 0) -- RCL
  else if mux = 9 then some (ctx.neighbours.getD 3 0) -- RCR
  else if mux = 10 then some 0
  else if mux = 11 then some 1
  else if mux = 12 then some MAX_32b
  else if mux = 13 then some MIN_32b
  else none

/-- `CGRA.get_neighbour_address(r, c, dir)` from `cgra_old.py`, which is the
spec's toroidal rule (row adjacencies wrap within the column's `CGRA_ROWS`
rows, left/right wrap modulo `CGRA_COLS` columns); the newer `vwr2a.py`
wiring is absent from the source, so this is also Modelled from the spec
for the governing simulator.  Directions follow the `self.neighbours` order
of `rc.py`: 0 = RCT, 1 = RCB, 2 = RCL, 3 = RCR. -/
def get_neighbour_address (r c dir : Nat) : Nat × Nat :=
  if dir = 0 then ((r + CGRA_ROWS - 1) % CGRA_ROWS, c)
  else if dir = 1 then ((r + 1) % CGRA_ROWS, c)
  else if dir = 2 then (r, (c + CGRA_COLS - 1) % CGRA_COLS)
  else if dir = 3 then (r, (c + 1) % CGRA_COLS)
  else (r, c)

/-- Neighbour wiring of the RC at `(r, c)`: the start-of-cycle ALU results
of `[RCT, RCB, RCL, RCR]` looked up in the grid `resGrid` of per-RC ALU
results. -/
def rcMeshNeighbours (resGrid : Nat → Nat → Int) (r c : Nat) : List Int :=
  [resGrid (get_neighbour_address r c 0).1 (get_neighbour_address r c 0).2,
   resGrid (get_neighbour_address r c 1).1 (get_neighbour_address r c 1).2,
   resGrid (get_neighbour_address r c 2).1 (get_neighbour_address r c 2).2,
   resGrid (get_neighbour_address r c 3).1 (get_neighbour_address r c 3).2]

/-- Start-of-cycle ALU results for the neighbour-reduction scenario of §8.4:
the four RCs of column 0 are seeded 1, 2, 3, 4; column 1 holds the reset
value 0. -/
def c5SeedRes : Nat → Nat → Int := fun r c => if c = 0 then (r : Int) + 1 else 0

/-- Context of RC `(r, 0)` in that scenario: `R0` also seeded `r + 1`. -/
def c5Ctx (r : Nat) : RCContext where
  mxcuRegs := List.replicate 8 0
  vwrs := [[], [], []]
  srf := List.replicate 8 0
  regs := [(r : Int) + 1, 0]
  neighbours := rcMeshNeighbours c5SeedRes r 0

/-- One cycle of RC `(r, 0)` in the scenario: `SADD` of the operand selected
by `mux` and of `R0` (mux code 4). -/
def c5Result (mux r : Nat) : Option Int :=
  match rcGetMuxValue mux (c5Ctx r) 0, rcGetMuxValue 4 (c5Ctx r) 0 with
  | some a, some b => some (sadd32 a b)
  | _, _ => none

/-! ## Assembler (`lcu.py` `LCU.asmToHex`, `rc.py` `RC.asmToHex`,
`simulator.py` `SIMULATOR.compileAsm`) -/

/-- Length in characters of `np.binary_repr(v, width)`: the binary (for
negative `v`: two's complement) representation of `v`, zero-padded to
`width` but NOT truncated — a value needing more than `width` bits yields a
longer string. -/
def binReprLen (v : Int) (width : Nat) : Nat :=
  if 0 ≤ v then max width (Nat.log2 v.toNat + 1)
  else if v = -1 then max width 1
  else max width (Nat.log2 (v.natAbs - 1) + 2)

/-- A parsed LCU operand as accepted by the mux-operand grammar of
`LCU.parseMuxAArith` / `LCU.parseMuxBArith` (`Rn`, `SRF(n)`, `ZERO`,
`LAST`, `ONE`). -/
inductive LCUOperand where
  | R (n : Nat)
  | SRF (n : Nat)
  | ZERO
  | LAST
  | ONE
  deriving DecidableEq, Repr

/-- `LCU.parseMuxAArith(rs, instr)`: returns the muxa select code and the
SRF index read (`-1` if none); `Rn` with `n > 3` raises; `ONE` matches no
muxa pattern, yielding `none` (the caller then raises). -/
def parseMuxAArith : LCUOperand → Except String (Option (Nat × Int))
  | .R n =>
      if n ≤ 3 then Except.ok (some (n, -1))
      else Except.error "The accessed register must be betwwen 0 and 3."
  | .SRF n => Except.ok (some (4, (n : Int)))
  | .ZERO => Except.ok (some (6, -1))
  | .LAST => Except.ok (some (5, -1))
  | .ONE => Except.ok none

/-- `LCU.parseMuxBArith(rs, instr)`: like `parseMuxAArith` but `ONE` is a
valid muxb select (code 7). -/
def parseMuxBArith : LCUOperand → Except String (Option (Nat × Int))
  | .R n =>
      if n ≤ 3 then Except.ok (some (n, -1))
      else Except.error "The accessed register must be betwwen 0 and 3."
  | .SRF n => Except.ok (some (4, (n : Int)))
  | .ZERO => Except.ok (some (6, -1))
  | .LAST => Except.ok (some (5, -1))
  | .ONE => Except.ok (some (7, -1))

/-- Field tuple of an LCU word as built by the assembler, with the
immediate kept as an unbounded integer (the Python `int(imm_str)`). -/
structure LCUAsmWord where
  imm : Int
  rf_wsel : Nat
  rf_we : Nat
  alu_op : Nat
  br_mode : Nat
  muxb_sel : Nat
  muxa_sel : Nat
  deriving DecidableEq, Repr

/-- Character count of the packed word string the `LCU_IMEM_WORD`
constructor builds from assembler fields (concatenation of the
`np.binary_repr` strings of the fields, widths 3/3/1/4/1/2/6). -/
def lcuAsmWordLen (w : LCUAsmWord) : Nat :=
  binReprLen w.muxa_sel 3 + binReprLen w.muxb_sel 3 + binReprLen w.br_mode 1 +
    binReprLen w.alu_op 4 + binReprLen w.rf_we 1 + binReprLen w.rf_wsel 2 +
    binReprLen w.imm 6

/-- Character count of the packed word string the `RC_IMEM_WORD`
constructor builds (widths 4/4/1/4/3/1/1). -/
def rcAsmWordLen (w : RC_IMEM_WORD) : Nat :=
  binReprLen w.muxa_sel 4 + binReprLen w.muxb_sel 4 + binReprLen w.op_mode 1 +
    binReprLen w.alu_op 4 + binReprLen w.muxf_sel 3 + binReprLen w.rf_we 1 +
    binReprLen w.rf_wsel 1

/-- Core of the `lcu_branch_ops` path of `LCU.asmToHex` (BEQ/BNE/BLT/BGEPD,
`alu_op = op`), after the two operand parses: the SRF bound check (note:
strict `>` against `SRF_N_REGS`), the operand-shape checks, the
BGEPD store index, the muxa/SRF consistency check, and the word
construction with `br_mode = 0`, `rf_we = 0`, `rf_wsel = 0`.  Returns
`(srf_read_index, srf_str_index, word)`. -/
def lcuAsmBranchCore (op : Nat) (muxARes muxBRes : Option (Nat × Int))
    (imm : Int) : Except String (Int × Int × LCUAsmWord) :=
  let srf_muxA_index : Int := match muxARes with | some (_, i) => i | none => -1
  let srf_muxB_index : Int := match muxBRes with | some (_, i) => i | none => -1
  if srf_muxB_index > (SRF_N_REGS : Int) ∨ srf_muxA_index > (SRF_N_REGS : Int) then
    Except.error "The accessed SRF must be betwwen 0 and 7."
  else
    match muxBRes with
    | none => Except.error "Expected another format for the first operand (muxB)."
    | some (muxB, _) =>
      match muxARes with
      | none => Except.error "Expected another format for the second operand (muxA)."
      | some (muxA, _) =>
        let srf_str_index : Int := if op = 11 then srf_muxB_index else -1
        if srf_muxA_index ≠ -1 ∧ srf_muxA_index ≠ srf_str_index then
          Except.error "Expected only reads/writes to the same reg of the SRF."
        else
          Except.ok (srf_muxA_index, srf_str_index,
            LCUAsmWord.mk imm 0 0 op 0 muxB muxA)

/-- The `lcu_branch_ops` path of `LCU.asmToHex` on the parsed operands
`rs` (first, muxb), `rt` (second, muxa) and the decimal immediate. -/
def lcuAsmBranch (op : Nat) (rs rt : LCUOperand) (imm : Int) :
    Except String (Int × Int × LCUAsmWord) :=
  match parseMuxAArith rt with
  | Except.error e => Except.error e
  | Except.ok muxARes =>
    match parseMuxBArith rs with
    | Except.error e => Except.error e
    | Except.ok muxBRes => lcuAsmBranchCore op muxARes muxBRes imm

/-- VWR letter (`A`, `B`, `C`). -/
inductive VWRLetter where
  | A
  | B
  | C
  deriving DecidableEq, Repr

/-- A parsed RC operand (`Rn`, `SRF(n)`, `VWR_X`, neighbour, constant). -/
inductive RCOperand where
  | R (n : Nat)
  | SRF (n : Nat)
  | VWR (l : VWRLetter)
  | RCT
  | RCB
  | RCL
  | RCR
  | ZERO
  | ONE
  | MAX_INT
  | MIN_INT
  deriving DecidableEq, Repr

/-- `RC.parseMuxArith(rs, instr)`: the mux select code and the SRF index
read (`-1` if none); `Rn` with `n > 1` raises. -/
def rcParseMux : RCOperand → Except String (Nat × Int)
  | .R n =>
      if n = 0 then Except.ok (4, -1)
      else if n = 1 then Except.ok (5, -1)
      else Except.error "The accessed register must be between 0 and 1."
  | .SRF n => Except.ok (3, (n : Int))
  | .VWR .A => Except.ok (0, -1)
  | .VWR .B => Except.ok (1, -1)
  | .VWR .C => Except.ok (2, -1)
  | .RCT => Except.ok (6, -1)
  | .RCB => Except.ok (7, -1)
  | .RCL => Except.ok (8, -1)
  | .RCR => Except.ok (9, -1)
  | .ZERO => Except.ok (10, -1)
  | .ONE => Except.ok (11, -1)
  | .MAX_INT => Except.ok (12, -1)
  | .MIN_INT => Except.ok (13, -1)

/-- `RC.parseDestArith(rd, instr)`: destination code, SRF store index and
VWR store letter index (each `-1` when absent); other operands match no
destination pattern (`none`). -/
def rcParseDest : RCOperand → Except String (Option (Nat × Int × Int))
  | .R n =>
      if n = 0 then Except.ok (some (0, -1, -1))
      else if n = 1 then Except.ok (some (1, -1, -1))
      else Except.error "The accessed register must be betwwen 0 and 1."
  | .SRF n => Except.ok (some (2, (n : Int), -1))
  | .VWR .A => Except.ok (some (3, -1, 0))
  | .VWR .B => Except.ok (some (3, -1, 1))
  | .VWR .C => Except.ok (some (3, -1, 2))
  | _ => Except.ok none

/-- The `rc_arith_ops` path of `RC.asmToHex` (32-bit, non-FP ops,
`alu_op = op`): parse the three operands, check the SRF bounds (note:
`>=` against `SRF_N_REGS`), the operand shapes and the single-SRF-register
constraints, then build the word with `op_mode = 0`, `muxf_sel = OWN`.
Returns `(srf_read_index, srf_str_index, vwr_str, word)`. -/
def rcAsmArith (op : Nat) (rd rs rt : RCOperand) :
    Except String (Int × Int × Int × RC_IMEM_WORD) :=
  match rcParseDest rd with
  | Except.error e => Except.error e
  | Except.ok destRes =>
    match rcParseMux rs with
    | Except.error e => Except.error e
    | Except.ok (muxA, srf_read_index0) =>
      match rcParseMux rt with
      | Except.error e => Except.error e
      | Except.ok (muxB, srf_muxB_index) =>
        let srf_str_index : Int :=
          match destRes with | some (_, i, _) => i | none => -1
        let vwr_str : Int :=
          match destRes with | some (_, _, v) => v | none => -1
        if srf_read_index0 ≥ (SRF_N_REGS : Int) ∨
            srf_muxB_index ≥ (SRF_N_REGS : Int) ∨
            srf_str_index ≥ (SRF_N_REGS : Int) then
          Except.error "The accessed SRF must be between 0 and 7."
        else
          match destRes with
          | none => Except.error "Expected another format for first operand (dest)."
          | some (dest, _, _) =>
            if srf_muxB_index ≠ -1 ∧ srf_read_index0 ≠ -1 ∧
                srf_muxB_index ≠ srf_read_index0 then
              Except.error "Expected only reads/writes to the same reg of the SRF."
            else
              let srf_read_index : Int :=
                if srf_muxB_index ≠ -1 then srf_muxB_index else srf_read_index0
              if srf_str_index ≠ -1 ∧ srf_read_index ≠ -1 ∧
                  srf_str_index ≠ srf_read_index then
                Except.error "Expected only reads/writes to the same reg of the SRF."
              else
                let rf_we : Nat := if srf_str_index = -1 ∧ vwr_str = -1 then 1 else 0
                let rf_wsel : Nat := if srf_str_index = -1 ∧ vwr_str = -1 then dest else 0
                Except.ok (srf_read_index, srf_str_index, vwr_str,
                  RC_IMEM_WORD.mk rf_wsel rf_we 0 op 0 muxB muxA)

/-- The VWR write check of `SIMULATOR.compileAsm` (lines 242-255): from the
per-RC VWR write targets (`-1` = no VWR write, 0/1/2 = A/B/C) compute the
per-row write-enable bitmap and the cycle's selected VWR; raise when two
RCs target different VWRs, or when the agreed target is not `A`, `B` or
`C`. -/
def checkVwrWrites (vwr_str_rc : List Int) : Except String (List Nat × Int) :=
  if 1 < ((vwr_str_rc.filter (fun n => n ≠ -1)).dedup).length then
    Except.error "Detected writes from different RCs to different VWRs."
  else if 0 < ((vwr_str_rc.filter (fun n => n ≠ -1)).dedup).length ∧
      ¬(((vwr_str_rc.filter (fun n => n ≠ -1)).dedup).getD 0 0 = 0 ∨
        ((vwr_str_rc.filter (fun n => n ≠ -1)).dedup).getD 0 0 = 1 ∨
        ((vwr_str_rc.filter (fun n => n ≠ -1)).dedup).getD 0 0 = 2) then
    Except.error "The selected VWR to write is not properly recognised."
  else
    Except.ok (vwr_str_rc.map (fun n => if n = -1 then 0 else 1),
      if 0 < ((vwr_str_rc.filter (fun n => n ≠ -1)).dedup).length then
        ((vwr_str_rc.filter (fun n => n ≠ -1)).dedup).getD 0 0
      else 0)

/-- C4: for every LCU word and every RC word with in-range, non-negative
fields (each field strictly below `2 ^ width`), decoding the encoded word
returns exactly the original field tuple: `decode(encode(w)) == w`. -/
theorem decode_encode_roundtrip :
    (∀ w : LCU_IMEM_WORD, w.inRange → lcuDecodeWord w.get_word = w) ∧
    (∀ w : RC_IMEM_WORD, w.inRange → rcDecodeWord w.get_word = w) := by
  constructor
  · rintro ⟨imm, wsel, we, alu, br, mb, ma⟩ ⟨h1, h2, h3, h4, h5, h6, h7⟩
    simp only [lcuDecodeWord, LCU_IMEM_WORD.get_word, LCU_IMEM_WORD.mk.injEq]
    norm_num at *
    refine ⟨?_, ?_, ?_, ?_, ?_, ?_, ?_⟩ <;> omega
  · rintro ⟨wsel, we, mf, alu, om, mb, ma⟩ ⟨h1, h2, h3, h4, h5, h6, h7⟩
    simp only [rcDecodeWord, RC_IMEM_WORD.get_word, RC_IMEM_WORD.mk.injEq]
    norm_num at *
    refine ⟨?_, ?_, ?_, ?_, ?_, ?_, ?_⟩ <;> omega

/-- C4 witness: the roundtrip evaluated at the concrete LCU word
`(imm=5, rf_wsel=1, rf_we=1, alu_op=9, br_mode=0, muxb_sel=3, muxa_sel=2)`
and the concrete RC word
`(rf_wsel=1, rf_we=1, muxf_sel=4, alu_op=13, op_mode=1, muxb_sel=9, muxa_sel=14)`. -/
theorem decode_encode_roundtrip_witness :
    lcuDecodeWord (LCU_IMEM_WORD.mk 5 1 1 9 0 3 2).get_word =
      LCU_IMEM_WORD.mk 5 1 1 9 0 3 2 ∧
    rcDecodeWord (RC_IMEM_WORD.mk 1 1 4 13 1 9 14).get_word =
      RC_IMEM_WORD.mk 1 1 4 13 1 9 14 :=
  ⟨decode_encode_roundtrip.1 _ (by decide), decode_encode_roundtrip.2 _ (by decide)⟩

/-- C1 counterexample: run `LCU.getMuxValue` for the A operand of a BGEPD
(`muxA = true`, `bgepd = true`) with source register R0 (`mux = 0`) holding 5.
The claim says the value fed to the ALU is the pre-decrement value 5 and R0
ends at 4; the code does decrement R0 to 4, but the mux read produces no
value at all (`muxValue` is unbound, `UnboundLocalError`), so nothing — in
particular not 5 — is fed to the ALU comparison. -/
theorem bgepd_predecrement_counterexample :
    lcuGetMuxValue 0 [5, 0, 0, 0] (List.replicate 8 0) 0 0 true true
      = (none, [4, 0, 0, 0], List.replicate 8 0) ∧
    (lcuGetMuxValue 0 [5, 0, 0, 0] (List.replicate 8 0) 0 0 true true).1
      ≠ some 5 := by
  constructor
  · rfl
  · decide

/-- C1 amended: for a BGEPD A operand whose source is a local R register
(`mux <= 3`) or the SRF (`mux = 4`), `LCU.getMuxValue` decrements the source
register in place by one but produces no operand value (the unbound
`muxValue` raises, modelled as `none`), so the ALU comparison never sees the
pre-decrement value; for the IMM A operand (`mux = 7`) the value fed to the
ALU is the already decremented `imm - 1`. -/
theorem bgepd_decrement_behaviour (mux : Nat) (regs srf : List Int)
    (srf_sel : Nat) (imm : Int) :
    (mux ≤ 3 → lcuGetMuxValue mux regs srf srf_sel imm true true
      = (none, regs.set mux (regs.getD mux 0 - 1), srf)) ∧
    lcuGetMuxValue 4 regs srf srf_sel imm true true
      = (none, regs, srf.set srf_sel (srf.getD srf_sel 0 - 1)) ∧
    (lcuGetMuxValue 7 regs srf srf_sel imm true true).1 = some (imm - 1) := by
  refine ⟨fun h => ?_, ?_, ?_⟩
  · simp [lcuGetMuxValue, h]
  · simp [lcuGetMuxValue]
  · simp [lcuGetMuxValue]

/-- C1 witness: the amended statement evaluated at `mux = 2`,
`regs = [9, 8, 7, 6]`, `srf = [1, 2, 3, 4, 5, 6, 7, 8]`, `srf_sel = 3`,
`imm = 11`. -/
theorem bgepd_decrement_behaviour_witness :
    lcuGetMuxValue 2 [9, 8, 7, 6] [1, 2, 3, 4, 5, 6, 7, 8] 3 11 true true
      = (none, [9, 8, 6, 6], [1, 2, 3, 4, 5, 6, 7, 8]) ∧
    lcuGetMuxValue 4 [9, 8, 7, 6] [1, 2, 3, 4, 5, 6, 7, 8] 3 11 true true
      = (none, [9, 8, 7, 6], [1, 2, 3, 3, 5, 6, 7, 8]) ∧
    (lcuGetMuxValue 7 [9, 8, 7, 6] [1, 2, 3, 4, 5, 6, 7, 8] 3 11 true true).1
      = some 10 := by
  have h := bgepd_decrement_behaviour 2 [9, 8, 7, 6] [1, 2, 3, 4, 5, 6, 7, 8] 3 11
  exact ⟨by simpa using h.1 (by norm_num), by simpa using h.2.1,
    by simpa using h.2.2⟩

/-- C2: with `br_mode = 0` the LCU branch ALU computes the wrapped 32-bit
difference `muxa - muxb` and, when the condition holds, sets `branch = 1`
and `branch_pc = imm`: BEQ on zero, BNE on not-zero, BLT on
(sign and not zero), BGEPD on (not sign, or zero); otherwise the branch
state is unchanged. -/
theorem lcu_branch_semantics (a b imm : Int) (st : LCUBranchState) :
    (lcuRunAluBranch 9 a b imm st
      = if ssub32 a b = 0 then LCUBranchState.mk 1 imm else st) ∧
    (lcuRunAluBranch 10 a b imm st
      = if ¬(ssub32 a b = 0) then LCUBranchState.mk 1 imm else st) ∧
    (lcuRunAluBranch 12 a b imm st
      = if ssub32 a b < 0 ∧ ¬(ssub32 a b = 0) then LCUBranchState.mk 1 imm else st) ∧
    (lcuRunAluBranch 11 a b imm st
      = if ¬(ssub32 a b < 0) ∨ ssub32 a b = 0 then LCUBranchState.mk 1 imm else st) := by
  rcases lt_trichotomy (ssub32 a b) 0 with h | h | h <;>
    refine ⟨?_, ?_, ?_, ?_⟩ <;>
      simp [lcuRunAluBranch, h] <;>
        first
          | omega
          | (split_ifs with h1 <;> first | rfl | omega)

/-- C2 witness: the branch semantics evaluated at `muxa = 3`, `muxb = 5`,
`imm = 7`, initial branch state `(0, 0)`: the difference is `-2`, so BEQ
leaves the state, BNE, BLT branch to 7, BGEPD leaves the state. -/
theorem lcu_branch_semantics_witness :
    lcuRunAluBranch 9 3 5 7 (LCUBranchState.mk 0 0) = LCUBranchState.mk 0 0 ∧
    lcuRunAluBranch 10 3 5 7 (LCUBranchState.mk 0 0) = LCUBranchState.mk 1 7 ∧
    lcuRunAluBranch 12 3 5 7 (LCUBranchState.mk 0 0) = LCUBranchState.mk 1 7 ∧
    lcuRunAluBranch 11 3 5 7 (LCUBranchState.mk 0 0) = LCUBranchState.mk 0 0 := by
  have h := lcu_branch_semantics 3 5 7 (LCUBranchState.mk 0 0)
  refine ⟨?_, ?_, ?_, ?_⟩
  · rw [h.1]; decide
  · rw [h.2.1]; decide
  · rw [h.2.2.1]; decide
  · rw [h.2.2.2]; decide

/-- C3: at the end of every cycle, with at most two active columns: if no
column reports a branch the pc is incremented by exactly 1; if exactly one
column reports a branch (its flag `b` is the only one different from `-1`)
the next pc is that column's branch target `b`; if more than one column
reports a branch the run aborts with the runtime error
`"Two branches taken in the same cycle"`. -/
theorem branch_arbitration (pc : Int) (flags : List Int)
    (hlen : flags.length ≤ 2) :
    (flags.filter (fun b => b ≠ -1) = [] →
      simArbitratePc pc flags = Except.ok (pc + 1)) ∧
    (∀ b : Int, flags.filter (fun b => b ≠ -1) = [b] →
      simArbitratePc pc flags = Except.ok b) ∧
    (2 ≤ (flags.filter (fun b => b ≠ -1)).length →
      simArbitratePc pc flags
        = Except.error "Two branches taken in the same cycle") := by
  rcases flags with _ | ⟨a, _ | ⟨b, _ | ⟨c, t⟩⟩⟩
  · refine ⟨fun _ => rfl, fun x hx => ?_, fun h2 => ?_⟩
    · simp at hx
    · simp at h2
  · by_cases ha : a = -1
    · subst ha
      refine ⟨fun _ => rfl, fun x hx => ?_, fun h2 => ?_⟩
      · simp at hx
      · simp at h2
    · refine ⟨fun h0 => ?_, fun x hx => ?_, fun h2 => ?_⟩
      · simp [ha] at h0
      · simp [ha] at hx
        subst hx
        simp [simArbitratePc, ha]
      · simp [ha] at h2
  · by_cases ha : a = -1 <;> by_cases hb : b = -1
    · subst ha; subst hb
      refine ⟨fun _ => rfl, fun x hx => ?_, fun h2 => ?_⟩
      · simp at hx
      · simp at h2
    · subst ha
      refine ⟨fun h0 => ?_, fun x hx => ?_, fun h2 => ?_⟩
      · simp [hb] at h0
      · simp [hb] at hx
        subst hx
        simp [simArbitratePc, hb]
      · simp [hb] at h2
    · subst hb
      refine ⟨fun h0 => ?_, fun x hx => ?_, fun h2 => ?_⟩
      · simp [ha] at h0
      · simp [ha] at hx
        subst hx
        simp [simArbitratePc, ha]
      · simp [ha] at h2
    · refine ⟨fun h0 => ?_, fun x hx => ?_, fun h2 => ?_⟩
      · simp [ha, hb] at h0
      · simp [ha, hb] at hx
      · simp [simArbitratePc, ha, hb]
  · simp at hlen

/-- C3 witness: arbitration evaluated at `pc = 10` with concrete flag lists:
no branch (`[-1, -1]`) gives pc 11, a single branch to 5 (`[5, -1]`) gives
pc 5, two branches (`[4, 7]`) give the runtime error. -/
theorem branch_arbitration_witness :
    simArbitratePc 10 [-1, -1] = Except.ok 11 ∧
    simArbitratePc 10 [5, -1] = Except.ok 5 ∧
    simArbitratePc 10 [4, 7]
      = Except.error "Two branches taken in the same cycle" := by
  refine ⟨(branch_arbitration 10 [-1, -1] (by norm_num)).1 (by decide),
    (branch_arbitration 10 [5, -1] (by norm_num)).2.1 5 (by decide),
    (branch_arbitration 10 [4, 7] (by norm_num)).2.2 (by decide)⟩

/-- C9: the cycle engine's pc trajectory is deterministic — two runs of
`SIMULATOR.run` from the same kernel descriptor (`nInstr`), the same
per-cycle slot execution function and the same initial machine state and pc
produce identical pc trajectories (same branch decisions and termination
point). -/
theorem sim_run_deterministic {M : Type}
    (cycleFn : Int → M → M × List Int × List Int) (nInstr : Int)
    (pc : Int) (m : M) (ex : Bool) (t1 t2 : List Int)
    (h1 : SimRun cycleFn nInstr pc m ex t1)
    (h2 : SimRun cycleFn nInstr pc m ex t2) : t1 = t2 := by
  induction h1 generalizing t2 with
  | halt pc m ex h =>
    cases h2 with
    | halt => rfl
    | step _ _ _ _ hlt harb hrest => exact absurd ⟨hlt, rfl⟩ h
    | abort _ _ _ hlt harb => exact absurd ⟨hlt, rfl⟩ h
  | step pc m traj pcNext hlt harb hrest ih =>
    cases h2 with
    | halt _ _ _ h => exact absurd ⟨hlt, rfl⟩ h
    | step _ _ traj2 pcNext2 hlt2 harb2 hrest2 =>
      rw [harb] at harb2
      cases harb2
      rw [ih _ hrest2]
    | abort _ _ e hlt2 harb2 => rw [harb] at harb2; cases harb2
  | abort pc m e hlt harb =>
    cases h2 with
    | halt _ _ _ h => exact absurd ⟨hlt, rfl⟩ h
    | step _ _ traj2 pcNext2 hlt2 harb2 hrest2 => rw [harb] at harb2; cases harb2
    | abort => rfl

/-- C9 witness: a concrete two-cycle run (one instruction, no branch, no
exit) has trajectory `[0, 1]`, and determinism applied to that run twice
yields the trajectory equality. -/
theorem sim_run_deterministic_witness :
    SimRun (fun _ (_ : Unit) => ((), ([-1] : List Int), ([-1] : List Int))) 1
      0 () false [0, 1] ∧
    ([0, 1] : List Int) = [0, 1] := by
  have d : SimRun (fun _ (_ : Unit) => ((), ([-1] : List Int), ([-1] : List Int))) 1
      0 () false [0, 1] := by
    refine SimRun.step 0 () [1] 1 (by norm_num) rfl ?_
    exact SimRun.halt 1 () false (by norm_num)
  exact ⟨d, sim_run_deterministic _ 1 0 () false [0, 1] [0, 1] d d⟩

/-- C5 counterexample: in the four-RC neighbour-reduction scenario (column 0
seeded 1, 2, 3, 4; each RC computing `SADD RCL, R0`), the toroidal mesh
makes RC0's left neighbour the RC at `(0, 1)` in the other column (result
0), so RC0's result is `0 + 1 = 1`, not the claimed `4 + 1 = 5`. -/
theorem rc_neighbour_counterexample :
    c5Result 8 0 = some 1 ∧ c5Result 8 0 ≠ some 5 := by
  constructor
  · rfl
  · decide

/-- C5 amended: an RC mux select among `RCT/RCB/RCL/RCR` (codes 6-9) yields
the current ALU result of the toroidal-mesh neighbour (rows wrap modulo
`CGRA_ROWS` within the column, left/right wrap modulo `CGRA_COLS` columns);
the example values `4+1, 1+2, 2+3, 3+4` arise for the four column-0 RCs
when the selected neighbour is `RCT` (the wrap-around ring over the
column's rows), giving results 5, 3, 5, 7. -/
theorem rc_neighbour_semantics :
    (∀ (resGrid : Nat → Nat → Int) (ctx : RCContext) (srf_sel r c dir : Nat),
      dir < 4 →
      ctx.neighbours = rcMeshNeighbours resGrid r c →
      rcGetMuxValue (6 + dir) ctx srf_sel
        = some (resGrid (get_neighbour_address r c dir).1
            (get_neighbour_address r c dir).2)) ∧
    (c5Result 6 0 = some 5 ∧ c5Result 6 1 = some 3 ∧
      c5Result 6 2 = some 5 ∧ c5Result 6 3 = some 7) := by
  constructor
  · intro resGrid ctx srf_sel r c dir hd hn
    interval_cases dir <;> simp [rcGetMuxValue, hn, rcMeshNeighbours]
  · refine ⟨by decide, by decide, by decide, by decide⟩

/-- C5 witness: the neighbour semantics evaluated in the scenario at RC
`(0, 0)` with direction RCL (code 2, mux 8): the left neighbour is
`(0, 1)`, whose seeded result is 0. -/
theorem rc_neighbour_semantics_witness :
    rcGetMuxValue 8 (c5Ctx 0) 0
      = some (c5SeedRes (get_neighbour_address 0 0 2).1
          (get_neighbour_address 0 0 2).2) ∧
    c5SeedRes (get_neighbour_address 0 0 2).1 (get_neighbour_address 0 0 2).2
      = 0 :=
  ⟨rc_neighbour_semantics.1 c5SeedRes (c5Ctx 0) 0 0 0 2 (by norm_num) rfl,
    by decide⟩

/-- A value representable in `width` bits yields a `binary_repr` string of
exactly `width` characters. -/
theorem binReprLen_eq_width (v : Int) (w : Nat) (hw : 1 ≤ w) (h0 : 0 ≤ v)
    (h1 : v < 2 ^ w) : binReprLen v w = w := by
  unfold binReprLen
  rw [if_pos h0]
  apply Nat.max_eq_left
  rcases Nat.eq_zero_or_pos v.toNat with hz | hp
  · rw [hz]
    simpa using hw
  · have hlt : v.toNat < 2 ^ w := by
      have : ((2 : Int) ^ w) = ((2 ^ w : Nat) : Int) := by push_cast; ring
      rw [this] at h1
      omega
    exact Nat.succ_le_of_lt ((Nat.log2_lt (by omega)).mpr hlt)

/-- A muxa select produced by `parseMuxAArith` is a 3-bit code. -/
theorem parseMuxAArith_sel_lt (o : LCUOperand) (m : Nat) (i : Int)
    (h : parseMuxAArith o = Except.ok (some (m, i))) : m < 8 := by
  cases o with
  | R n =>
    by_cases hn : n ≤ 3
    · simp [parseMuxAArith, hn] at h
      omega
    · simp [parseMuxAArith, hn] at h
  | SRF n => simp [parseMuxAArith] at h; omega
  | ZERO => simp [parseMuxAArith] at h; omega
  | LAST => simp [parseMuxAArith] at h; omega
  | ONE => simp [parseMuxAArith] at h

/-- A muxb select produced by `parseMuxBArith` is a 3-bit code. -/
theorem parseMuxBArith_sel_lt (o : LCUOperand) (m : Nat) (i : Int)
    (h : parseMuxBArith o = Except.ok (some (m, i))) : m < 8 := by
  cases o with
  | R n =>
    by_cases hn : n ≤ 3
    · simp [parseMuxBArith, hn] at h
      omega
    · simp [parseMuxBArith, hn] at h
  | SRF n => simp [parseMuxBArith] at h; omega
  | ZERO => simp [parseMuxBArith] at h; omega
  | LAST => simp [parseMuxBArith] at h; omega
  | ONE => simp [parseMuxBArith] at h; omega

/-- Inversion of the branch-path core: success forces both operands to have
parsed and fixes the word fields. -/
theorem lcuAsmBranchCore_ok (op : Nat) (mA mB : Option (Nat × Int))
    (imm : Int) (r s : Int) (w : LCUAsmWord)
    (h : lcuAsmBranchCore op mA mB imm = Except.ok (r, s, w)) :
    ∃ a ia b ib, mA = some (a, ia) ∧ mB = some (b, ib) ∧
      w = LCUAsmWord.mk imm 0 0 op 0 b a := by
  rcases mA with _ | ⟨a, ia⟩ <;> rcases mB with _ | ⟨b, ib⟩ <;>
    simp only [lcuAsmBranchCore] at h <;> split_ifs at h <;> simp_all

/-- C6 counterexample: `BGE`-style branch mnemonics accept an arbitrary
decimal immediate; `BEQ ZERO, ZERO, 64` is accepted by the LCU assembler
and its packed word is 21 characters, not the slot width 20 (the 6-bit
`imm` field receives the 7-character string `1000000`). -/
theorem asm_word_width_counterexample :
    lcuAsmBranch 9 LCUOperand.ZERO LCUOperand.ZERO 64
      = Except.ok (-1, -1, LCUAsmWord.mk 64 0 0 9 0 6 6) ∧
    lcuAsmWordLen (LCUAsmWord.mk 64 0 0 9 0 6 6) = 21 ∧ (21 : Nat) ≠ 20 := by
  refine ⟨rfl, ?_, by decide⟩
  simp [lcuAsmWordLen, binReprLen, Nat.log2]

/-- C6 amended: a branch instruction accepted by the LCU assembler packs to
exactly 20 bits provided its immediate fits the 6-bit field
(`0 <= imm < 64`); an RC word with in-range fields always packs to exactly
18 bits (the RC assembler has no immediate operand). -/
theorem asm_word_width :
    (∀ (op : Nat) (rs rt : LCUOperand) (imm : Int) (r s : Int)
        (w : LCUAsmWord), op < 16 → 0 ≤ imm → imm < 64 →
      lcuAsmBranch op rs rt imm = Except.ok (r, s, w) →
      lcuAsmWordLen w = 20) ∧
    (∀ w : RC_IMEM_WORD, w.inRange → rcAsmWordLen w = 18) := by
  constructor
  · intro op rs rt imm r s w hop h0 h64 h
    unfold lcuAsmBranch at h
    rcases hA : parseMuxAArith rt with eA | mARes <;> rw [hA] at h
    · cases h
    rcases hB : parseMuxBArith rs with eB | mBRes <;> rw [hB] at h
    · cases h
    obtain ⟨a, ia, b, ib, hmA, hmB, hw⟩ := lcuAsmBranchCore_ok op mARes mBRes imm r s w h
    subst hmA hmB hw
    have ha : a < 8 := parseMuxAArith_sel_lt rt a ia hA
    have hb : b < 8 := parseMuxBArith_sel_lt rs b ib hB
    unfold lcuAsmWordLen
    simp only
    rw [binReprLen_eq_width _ 3 (by norm_num) (by positivity) (by exact_mod_cast ha),
      binReprLen_eq_width _ 3 (by norm_num) (by positivity) (by exact_mod_cast hb),
      binReprLen_eq_width _ 1 (by norm_num) (by norm_num) (by norm_num),
      binReprLen_eq_width _ 4 (by norm_num) (by positivity) (by exact_mod_cast hop),
      binReprLen_eq_width _ 2 (by norm_num) (by norm_num) (by norm_num),
      binReprLen_eq_width _ 6 (by norm_num) h0 (by exact_mod_cast h64)]
  · rintro ⟨wsel, we, mf, alu, om, mb, ma⟩ ⟨h1, h2, h3, h4, h5, h6, h7⟩
    unfold rcAsmWordLen
    simp only
    rw [binReprLen_eq_width _ 4 (by norm_num) (by positivity) (by exact_mod_cast h7),
      binReprLen_eq_width _ 4 (by norm_num) (by positivity) (by exact_mod_cast h6),
      binReprLen_eq_width _ 1 (by norm_num) (by positivity) (by exact_mod_cast h5),
      binReprLen_eq_width _ 4 (by norm_num) (by positivity) (by exact_mod_cast h4),
      binReprLen_eq_width _ 3 (by norm_num) (by positivity) (by exact_mod_cast h3),
      binReprLen_eq_width _ 1 (by norm_num) (by positivity) (by exact_mod_cast h2),
      binReprLen_eq_width _ 1 (by norm_num) (by positivity) (by exact_mod_cast h1)]

/-- C6 witness: the amended width bound evaluated at the accepted branch
`BEQ ZERO, ZERO, 5` (in-range immediate 5) and at the concrete RC word
`(1, 1, 4, 13, 1, 9, 14)`. -/
theorem asm_word_width_witness :
    lcuAsmBranch 9 LCUOperand.ZERO LCUOperand.ZERO 5
      = Except.ok (-1, -1, LCUAsmWord.mk 5 0 0 9 0 6 6) ∧
    lcuAsmWordLen (LCUAsmWord.mk 5 0 0 9 0 6 6) = 20 ∧
    rcAsmWordLen (RC_IMEM_WORD.mk 1 1 4 13 1 9 14) = 18 :=
  ⟨rfl,
    asm_word_width.1 9 LCUOperand.ZERO LCUOperand.ZERO 5 (-1) (-1) _
      (by norm_num) (by norm_num) (by norm_num) rfl,
    asm_word_width.2 _ (by decide)⟩

/-- A non-empty list whose elements are all `v` dedups to `[v]`. -/
theorem dedup_all_eq {l : List Int} {v : Int} (hne : l ≠ [])
    (hall : ∀ x ∈ l, x = v) : l.dedup = [v] := by
  induction l with
  | nil => exact absurd rfl hne
  | cons a t ih =>
    have ha : a = v := hall a (by simp)
    subst ha
    by_cases ht : t = []
    · subst ht
      simp
    · have hmem : a ∈ t := by
        rcases t with _ | ⟨b, t2⟩
        · exact absurd rfl ht
        · have hb : b = a := hall b (by simp)
          simp [hb]
      rw [List.dedup_cons_of_mem hmem]
      exact ih ht (fun x hx => hall x (by simp [hx]))

/-- Two distinct members force a dedup length of at least two. -/
theorem two_mem_dedup_length {l : List Int} {a b : Int} (ha : a ∈ l)
    (hb : b ∈ l) (hab : a ≠ b) : 1 < l.dedup.length := by
  have ha2 : a ∈ l.dedup := List.mem_dedup.mpr ha
  have hb2 : b ∈ l.dedup := List.mem_dedup.mpr hb
  rcases hd : l.dedup with _ | ⟨x, _ | ⟨y, t⟩⟩
  · rw [hd] at ha2
    simp at ha2
  · rw [hd] at ha2 hb2
    simp at ha2 hb2
    exact absurd (ha2.trans hb2.symm) hab
  · simp

/-- C7: for a cycle whose per-RC VWR write targets are each `-1` (no write)
or a letter index 0/1/2: if two RCs name different letters, the VWR check
of `SIMULATOR.compileAsm` fails reporting writes from different RCs to
different VWRs; if all writing RCs name the same letter `v`, it succeeds
with the per-row write-enable bitmap and `v` as the cycle's selected VWR. -/
theorem vwr_write_check (flags : List Int)
    (hv : ∀ x ∈ flags, x = -1 ∨ x = 0 ∨ x = 1 ∨ x = 2) :
    (∀ a b : Int, a ∈ flags → b ∈ flags → a ≠ -1 → b ≠ -1 → a ≠ b →
      checkVwrWrites flags
        = Except.error "Detected writes from different RCs to different VWRs.") ∧
    (∀ v : Int, v ∈ flags → v ≠ -1 → (∀ x ∈ flags, x = -1 ∨ x = v) →
      checkVwrWrites flags
        = Except.ok (flags.map (fun n => if n = -1 then 0 else 1), v)) := by
  constructor
  · intro a b ha hb hna hnb hab
    have ha2 : a ∈ flags.filter (fun n => n ≠ -1) :=
      List.mem_filter.mpr ⟨ha, by simpa using hna⟩
    have hb2 : b ∈ flags.filter (fun n => n ≠ -1) :=
      List.mem_filter.mpr ⟨hb, by simpa using hnb⟩
    have h2 := two_mem_dedup_length ha2 hb2 hab
    unfold checkVwrWrites
    rw [if_pos h2]
  · intro v hvmem hvne hvall
    have hvf : v ∈ flags.filter (fun n => n ≠ -1) :=
      List.mem_filter.mpr ⟨hvmem, by simpa using hvne⟩
    have hne : flags.filter (fun n => n ≠ -1) ≠ [] := by
      intro hnil
      rw [hnil] at hvf
      simp at hvf
    have hall : ∀ x ∈ flags.filter (fun n => n ≠ -1), x = v := by
      intro x hx
      have hx2 := List.mem_filter.mp hx
      rcases hvall x hx2.1 with h | h
      · exact absurd h (by simpa using hx2.2)
      · exact h
    have hd : (flags.filter (fun n => n ≠ -1)).dedup = [v] :=
      dedup_all_eq hne hall
    have hv3 : v = 0 ∨ v = 1 ∨ v = 2 := by
      rcases hv v hvmem with h | h
      · exact absurd h hvne
      · exact h
    unfold checkVwrWrites
    rw [hd]
    rw [if_neg (by norm_num)]
    rw [if_neg (fun hc => hc.2 (by simpa using hv3))]
    simp

/-- C7 witness: the VWR check evaluated at the flag lists `[0, 1, -1, -1]`
(RC0 writes VWR A, RC1 writes VWR B: error) and `[0, -1, 0, -1]` (RC0 and
RC2 both write VWR A: success with write-enables `[1, 0, 1, 0]` and
selected VWR 0). -/
theorem vwr_write_check_witness :
    checkVwrWrites [0, 1, -1, -1]
      = Except.error "Detected writes from different RCs to different VWRs." ∧
    checkVwrWrites [0, -1, 0, -1]
      = Except.ok ([1, 0, 1, 0], 0) :=
  ⟨(vwr_write_check [0, 1, -1, -1] (by decide)).1 0 1 (by decide) (by decide)
      (by decide) (by decide) (by decide),
    by
      have h := (vwr_write_check [0, -1, 0, -1] (by decide)).2 0 (by decide)
        (by decide) (by decide)
      exact h⟩

/-- C8 (code evaluation at the failing input): the LCU assembler's SRF
range check uses strict `>` against `SRF_N_REGS = 8`, so the out-of-range
operand `SRF(8)` is accepted (here in `BEQ SRF(8), R0, 0`) even though the
accompanying error text promises rejection of indices above 7; `SRF(9)` is
rejected, and the RC assembler (which compares with `>=`) correctly rejects
`SRF(8)`. -/
theorem srf_range_check_divergence :
    lcuAsmBranch 9 (LCUOperand.SRF 8) (LCUOperand.R 0) 0
      = Except.ok (-1, -1, LCUAsmWord.mk 0 0 0 9 0 4 0) ∧
    lcuAsmBranch 9 (LCUOperand.SRF 9) (LCUOperand.R 0) 0
      = Except.error "The accessed SRF must be betwwen 0 and 7." ∧
    rcAsmArith 1 (RCOperand.R 0) (RCOperand.SRF 8) (RCOperand.R 0)
      = Except.error "The accessed SRF must be between 0 and 7." :=
  ⟨rfl, rfl, rfl⟩

/-- C10: `SIMULATOR.kernel_config` with `column_usage = [False, False]`
raises no error and stores the same one-hot column usage, namely 2
(column 1 only), as `[False, True]`. -/
theorem kernel_config_unused_columns :
    kernelConfigColOneHot false false = 2 ∧
    kernelConfigColOneHot false false = kernelConfigColOneHot false true := by
  decide

end VWR2A
